import Mathlib

/-!
Verification of the Command Resolution & Resilient Execution Engine of the
Termux setup script (`src/Termux-Setup.py`).

The Python source is shallowly embedded: external command execution is
modelled by an oracle `exec : Nat → Nat → Except ε α` mapping the attempt
number and the timeout passed to that attempt to the attempt's outcome
(`.error` covers non-zero exit, timeout and launch errors, which the source
treats alike via `except Exception`).  The embedding records a trace of the
execution calls made and of the backoff sleeps inserted, so that claims
about attempt counts and waits are claims about the trace.
-/

namespace TermuxSetup

/-- `MAX_RETRIES = 3` — module constant, default of `run_with_retry`'s
`max_retries` parameter. -/
def MAX_RETRIES : Int := 3

/-- `BACKOFF_BASE = 4` — module constant; the backoff computation
`BACKOFF_BASE * (2 ** (attempt - 1))` reads it directly (it is not a
parameter of `run_with_retry`). -/
def BACKOFF_BASE : Nat := 4

/-- `CMD_TIMEOUT = 900` — module constant, default of `run_with_retry`'s
`timeout` parameter. -/
def CMD_TIMEOUT : Nat := 900

/-- Trace of one call to `run_with_retry`:
`calls` lists, in order, the `(attempt number, timeout)` of every execution
of the command; `sleeps` lists, in order, the backoff waits inserted between
attempts; `result` is `.ok` on success and `.error last_exc` when the
final `raise RuntimeError(...) from last_exc` is reached (`none` when no
attempt ever ran, mirroring `last_exc = None`). -/
structure RunTrace (ε α : Type) where
  calls : List (Nat × Nat)
  sleeps : List Nat
  result : Except (Option ε) α
  deriving Repr

/-- The `while attempt < max_retries` loop of `run_with_retry`
(src/Termux-Setup.py lines 121-152).  `attempt` is the loop counter (the
number of attempts made so far), `last` is `last_exc`.  The loop body
increments `attempt`, runs the command, returns on success, and on failure
— when more attempts remain — runs the best-effort self-update (a pure
side effect, invisible in the trace) and sleeps
`BACKOFF_BASE * 2 ^ (attempt - 1)`.  `fuel` bounds the recursion; callers
supply `maxR.toNat + 1`, which exceeds the loop's iteration count. -/
def run_with_retry_go (exec : Nat → Nat → Except ε α) (maxR : Int) (t : Nat) :
    Nat → Nat → Option ε → RunTrace ε α
  | 0, _, last => ⟨[], [], .error last⟩
  | fuel + 1, attempt, last =>
    -- the body first executes `attempt += 1`; below `attempt + 1` stands for
    -- the incremented counter the source calls `attempt` inside the body
    if (attempt : Int) < maxR then
      match exec (attempt + 1) t with
      | .ok r => ⟨[(attempt + 1, t)], [], .ok r⟩
      | .error e =>
        if ((attempt + 1 : Nat) : Int) < maxR then
          let rest := run_with_retry_go exec maxR t fuel (attempt + 1) (some e)
          ⟨(attempt + 1, t) :: rest.calls,
           (BACKOFF_BASE * 2 ^ (attempt + 1 - 1)) :: rest.sleeps, rest.result⟩
        else
          ⟨[(attempt + 1, t)], [], .error (some e)⟩
    else ⟨[], [], .error last⟩

/-- `run_with_retry(cmd, max_retries, timeout)`: runs the command through
the retry loop starting at `attempt = 0`, `last_exc = None`. -/
def run_with_retry (exec : Nat → Nat → Except ε α) (maxR : Int) (t : Nat) : RunTrace ε α :=
  run_with_retry_go exec maxR t (maxR.toNat + 1) 0 none

/-- A call of `run_with_retry(cmd)` with neither optional argument supplied:
the defaults are the module constants `MAX_RETRIES` and `CMD_TIMEOUT`. -/
def run_with_retry_default (exec : Nat → Nat → Except ε α) : RunTrace ε α :=
  run_with_retry exec MAX_RETRIES CMD_TIMEOUT

/-- Characterisation of the loop when every attempt fails: starting at
`attempt` with `attempt < mR` and enough fuel, the loop makes attempts
`attempt+1, …, mR` (all with timeout `t`), sleeps
`BACKOFF_BASE * 2^attempt, …, BACKOFF_BASE * 2^(mR-2)`, and ends with the
error of attempt `mR`. -/
theorem run_with_retry_go_allfail (exec : Nat → Nat → Except ε α) (f : Nat → ε) (t : Nat)
    (mR : Nat) (h : ∀ k u, exec k u = .error (f k)) :
    ∀ fuel attempt last, attempt < mR → mR ≤ attempt + fuel →
      run_with_retry_go exec (mR : Int) t fuel attempt last =
        ⟨(List.range' (attempt + 1) (mR - attempt)).map (fun k => (k, t)),
         (List.range' attempt (mR - 1 - attempt)).map (fun k => BACKOFF_BASE * 2 ^ k),
         .error (some (f mR))⟩ := by
  intro fuel
  induction fuel with
  | zero => intro attempt last h1 h2; omega
  | succ fuel ih =>
    intro attempt last h1 h2
    have hc : ((attempt : Int) < (mR : Int)) := by exact_mod_cast h1
    rw [run_with_retry_go, if_pos hc, h (attempt + 1) t]
    dsimp only
    by_cases h3 : attempt + 1 < mR
    · have hc3 : (((attempt + 1 : Nat) : Int) < (mR : Int)) := by exact_mod_cast h3
      rw [if_pos hc3, ih (attempt + 1) (some (f (attempt + 1))) h3 (by omega)]
      have e1 : mR - attempt = (mR - (attempt + 1)) + 1 := by omega
      have e2 : mR - 1 - attempt = (mR - 1 - (attempt + 1)) + 1 := by omega
      rw [e1, e2, List.range'_succ, List.range'_succ]
      simp
    · have h4 : attempt + 1 = mR := by omega
      have hc3 : ¬ (((attempt + 1 : Nat) : Int) < (mR : Int)) := by exact_mod_cast h3
      rw [if_neg hc3]
      have e1 : mR - attempt = 1 := by omega
      have e2 : mR - 1 - attempt = 0 := by omega
      simp [e1, e2, List.range'_succ, h4]

/-- The sleeps recorded by the loop, whatever the outcomes, form the
geometric schedule `BACKOFF_BASE * 2^attempt, BACKOFF_BASE * 2^(attempt+1), …`
from the starting attempt counter. -/
theorem run_with_retry_go_sleeps (exec : Nat → Nat → Except ε α) (maxR : Int) (t : Nat) :
    ∀ fuel attempt last, ∃ n,
      (run_with_retry_go exec maxR t fuel attempt last).sleeps =
        (List.range' attempt n).map (fun k => BACKOFF_BASE * 2 ^ k) := by
  intro fuel
  induction fuel with
  | zero => intro attempt last; exact ⟨0, rfl⟩
  | succ fuel ih =>
    intro attempt last
    rw [run_with_retry_go]
    by_cases hc : (attempt : Int) < maxR
    · rw [if_pos hc]
      cases hx : exec (attempt + 1) t with
      | ok r => exact ⟨0, rfl⟩
      | error e =>
        dsimp only
        by_cases hc2 : ((attempt + 1 : Nat) : Int) < maxR
        · rw [if_pos hc2]
          obtain ⟨n, hn⟩ := ih (attempt + 1) (some e)
          refine ⟨n + 1, ?_⟩
          simp only [hn, List.range'_succ, List.map_cons]
          simp
        · rw [if_neg hc2]; exact ⟨0, rfl⟩
    · rw [if_neg hc]; exact ⟨0, rfl⟩

/-- Every execution call made by the loop receives exactly the timeout `t`
that was passed to `run_with_retry`. -/
theorem run_with_retry_go_timeout (exec : Nat → Nat → Except ε α) (maxR : Int) (t : Nat) :
    ∀ fuel attempt last, ∀ c ∈ (run_with_retry_go exec maxR t fuel attempt last).calls,
      c.2 = t := by
  intro fuel
  induction fuel with
  | zero => intro attempt last c hc; simp [run_with_retry_go] at hc
  | succ fuel ih =>
    intro attempt last c hc
    rw [run_with_retry_go] at hc
    by_cases h1 : (attempt : Int) < maxR
    · rw [if_pos h1] at hc
      cases hx : exec (attempt + 1) t with
      | ok r => simp_all
      | error e =>
        rw [hx] at hc
        dsimp only at hc
        by_cases h2 : ((attempt + 1 : Nat) : Int) < maxR
        · rw [if_pos h2] at hc
          simp only [List.mem_cons] at hc
          rcases hc with hc | hc
          · simp [hc]
          · exact ih (attempt + 1) (some e) c hc
        · rw [if_neg h2] at hc; simp at hc; simp [hc]
    · rw [if_neg h1] at hc; simp at hc

/-- One unfolding of the loop when the next attempt succeeds. -/
theorem run_with_retry_go_step_ok (exec : Nat → Nat → Except ε α) (maxR : Int) (t : Nat)
    (fuel attempt : Nat) (last : Option ε) (r : α)
    (hc : (attempt : Int) < maxR) (hx : exec (attempt + 1) t = .ok r) :
    run_with_retry_go exec maxR t (fuel + 1) attempt last = ⟨[(attempt + 1, t)], [], .ok r⟩ := by
  rw [run_with_retry_go, if_pos hc, hx]

/-- One unfolding of the loop when the next attempt fails and further
attempts remain: the attempt and the backoff sleep are recorded and the
loop recurses. -/
theorem run_with_retry_go_step_err (exec : Nat → Nat → Except ε α) (maxR : Int) (t : Nat)
    (fuel attempt : Nat) (last : Option ε) (e : ε)
    (hc : (attempt : Int) < maxR) (hc2 : ((attempt + 1 : Nat) : Int) < maxR)
    (hx : exec (attempt + 1) t = .error e) :
    run_with_retry_go exec maxR t (fuel + 1) attempt last =
      ⟨(attempt + 1, t) :: (run_with_retry_go exec maxR t fuel (attempt + 1) (some e)).calls,
       BACKOFF_BASE * 2 ^ attempt ::
         (run_with_retry_go exec maxR t fuel (attempt + 1) (some e)).sleeps,
       (run_with_retry_go exec maxR t fuel (attempt + 1) (some e)).result⟩ := by
  rw [run_with_retry_go, if_pos hc, hx]
  dsimp only
  rw [if_pos hc2]
  simp

/-- C1: a command failing on every attempt is tried exactly `max_retries`
times and the run then fails with the terminal error carrying the failure
of the last attempt; a command failing on attempt 1 and succeeding on
attempt 2 yields success after exactly 2 attempts. -/
theorem claim_C1_retry_attempt_counts {ε α : Type} (t : Nat) (mR₁ mR₂ : Nat)
    (execF : Nat → Nat → Except ε α) (f : Nat → ε)
    (execS : Nat → Nat → Except ε α) (e : ε) (r : α)
    (hfail : ∀ k u, execF k u = Except.error (f k)) (hmR₁ : 1 ≤ mR₁)
    (hS1 : ∀ u, execS 1 u = Except.error e) (hS2 : ∀ u, execS 2 u = Except.ok r)
    (hmR₂ : 2 ≤ mR₂) :
    ((run_with_retry execF (mR₁ : Int) t).calls.length = mR₁
      ∧ (run_with_retry execF (mR₁ : Int) t).result = Except.error (some (f mR₁)))
    ∧ ((run_with_retry execS (mR₂ : Int) t).calls.map Prod.fst = [1, 2]
      ∧ (run_with_retry execS (mR₂ : Int) t).result = Except.ok r) := by
  constructor
  · have h0 : ((mR₁ : Int)).toNat = mR₁ := by simp
    rw [run_with_retry, h0,
      run_with_retry_go_allfail execF f t mR₁ hfail (mR₁ + 1) 0 none hmR₁ (by omega)]
    constructor
    · simp
    · rfl
  · obtain ⟨m, rfl⟩ : ∃ m, mR₂ = m + 2 := ⟨mR₂ - 2, by omega⟩
    have h0 : (((m + 2 : Nat) : Int)).toNat = m + 2 := by omega
    rw [run_with_retry, h0]
    rw [run_with_retry_go_step_err execS _ t (m + 2) 0 none e
      (by exact_mod_cast Nat.succ_pos (m + 1)) (by exact_mod_cast by omega) (hS1 t)]
    rw [show m + 2 = (m + 1) + 1 from rfl,
      run_with_retry_go_step_ok execS _ t (m + 1) 1 (some e) r
        (by exact_mod_cast by omega) (hS2 t)]
    constructor
    · simp
    · rfl

/-- C1 witness: with `max_retries = 3` an always-failing command is tried
exactly 3 times and fails carrying the error of attempt 3; a command
failing once then succeeding returns success after attempts 1 and 2. -/
theorem claim_C1_retry_attempt_counts_witness :
    ((run_with_retry (fun k _ => (Except.error k : Except Nat Nat)) ((3 : Nat) : Int) 900).calls.length = 3
      ∧ (run_with_retry (fun k _ => (Except.error k : Except Nat Nat)) ((3 : Nat) : Int) 900).result
          = Except.error (some 3))
    ∧ ((run_with_retry (fun k _ => if k = 1 then Except.error 7 else (Except.ok 5 : Except Nat Nat))
          ((3 : Nat) : Int) 900).calls.map Prod.fst = [1, 2]
      ∧ (run_with_retry (fun k _ => if k = 1 then Except.error 7 else (Except.ok 5 : Except Nat Nat))
          ((3 : Nat) : Int) 900).result = Except.ok 5) :=
  claim_C1_retry_attempt_counts 900 3 3 _ (fun k => k) _ 7 5
    (fun _ _ => rfl) (by decide) (fun _ => rfl) (fun _ => rfl) (by decide)

/-- C5: within one execution run, the wait recorded after failed attempt
`i + 1` (i.e. before attempt `i + 2`) equals `BACKOFF_BASE * 2 ^ i` — in
the claim's 1-based indexing, the wait before attempt `k + 1` equals
`base * 2 ^ (k - 1)`. -/
theorem claim_C5_backoff_schedule {ε α : Type} (exec : Nat → Nat → Except ε α)
    (maxR : Int) (t : Nat) (i : Nat)
    (h : i < (run_with_retry exec maxR t).sleeps.length) :
    (run_with_retry exec maxR t).sleeps.get ⟨i, h⟩ = BACKOFF_BASE * 2 ^ i := by
  obtain ⟨n, hn⟩ := run_with_retry_go_sleeps exec maxR t (maxR.toNat + 1) 0 none
  have hrun : (run_with_retry exec maxR t).sleeps =
      (List.range' 0 n).map (fun k => BACKOFF_BASE * 2 ^ k) := hn
  simp only [List.get_eq_getElem]
  rw [List.getElem_of_eq hrun]
  simp [List.getElem_range']

/-- C5 witness: with `base = 4` and an always-failing command under
`max_retries = 3`, the wait after attempt 2 (before attempt 3) is
`8 = 4 * 2 ^ 1`. -/
theorem claim_C5_backoff_schedule_witness :
    (run_with_retry (fun k _ => (Except.error k : Except Nat Nat)) 3 900).sleeps.get
      ⟨1, by decide⟩ = BACKOFF_BASE * 2 ^ 1 :=
  claim_C5_backoff_schedule _ 3 900 1 (by decide)

/-- C10: calling `run_with_retry` with `max_retries ≤ 0` makes zero
execution attempts and fails at once with the terminal error whose
underlying cause is absent (`last_exc = None`). -/
theorem claim_C10_nonpositive_max_retries {ε α : Type} (exec : Nat → Nat → Except ε α)
    (maxR : Int) (t : Nat) (h : maxR ≤ 0) :
    run_with_retry exec maxR t = ⟨[], [], Except.error none⟩ := by
  have h0 : maxR.toNat = 0 := Int.toNat_of_nonpos h
  rw [run_with_retry, h0, run_with_retry_go, if_neg]
  simp only [Nat.cast_zero]
  omega

/-- C10 witness: with `max_retries = -1` no attempt is made and the run
fails with an error carrying no cause. -/
theorem claim_C10_nonpositive_max_retries_witness :
    run_with_retry (fun k _ => (Except.ok k : Except Nat Nat)) (-1) 900
      = ⟨[], [], Except.error none⟩ :=
  claim_C10_nonpositive_max_retries _ (-1) 900 (by decide)

/-- C4 (amended): the numeric defaults are `MAX_RETRIES = 3`,
`BACKOFF_BASE = 4`, `CMD_TIMEOUT = 900`; `max_retries` and `timeout` are
per-call parameters whose supplied values govern the run (attempt count,
timeout of every execution), while the backoff base is the module constant
`BACKOFF_BASE`, read directly by the loop rather than supplied per call. -/
theorem claim_C4_defaults_and_overrides {ε α : Type}
    (execF : Nat → Nat → Except ε α) (f : Nat → ε) (mR : Nat) (t : Nat) (i : Nat)
    (hfail : ∀ k u, execF k u = Except.error (f k)) (hmR : 1 ≤ mR)
    (hi : i < (run_with_retry execF (mR : Int) t).sleeps.length) :
    (MAX_RETRIES = 3 ∧ BACKOFF_BASE = 4 ∧ CMD_TIMEOUT = 900)
    ∧ (∀ (exec₂ : Nat → Nat → Except ε α), run_with_retry_default exec₂ = run_with_retry exec₂ 3 900)
    ∧ (run_with_retry execF (mR : Int) t).calls.length = mR
    ∧ (∀ c ∈ (run_with_retry execF (mR : Int) t).calls, c.2 = t)
    ∧ (run_with_retry execF (mR : Int) t).sleeps.get ⟨i, hi⟩ = BACKOFF_BASE * 2 ^ i := by
  refine ⟨⟨rfl, rfl, rfl⟩, fun _ => rfl, ?_, ?_, ?_⟩
  · have h0 : ((mR : Int)).toNat = mR := by simp
    rw [run_with_retry, h0,
      run_with_retry_go_allfail execF f t mR hfail (mR + 1) 0 none hmR (by omega)]
    simp
  · intro c hc
    exact run_with_retry_go_timeout execF (mR : Int) t _ 0 none c hc
  · exact claim_C5_backoff_schedule execF (mR : Int) t i hi

/-- C4 witness: a run with `max_retries = 3`, `timeout = 900` and an
always-failing command shows the defaults, the honoured per-call
parameters, and the global backoff base. -/
theorem claim_C4_defaults_and_overrides_witness :
    (MAX_RETRIES = 3 ∧ BACKOFF_BASE = 4 ∧ CMD_TIMEOUT = 900)
    ∧ (∀ (exec₂ : Nat → Nat → Except Nat Nat), run_with_retry_default exec₂ = run_with_retry exec₂ 3 900)
    ∧ (run_with_retry (fun k _ => (Except.error k : Except Nat Nat)) ((3 : Nat) : Int) 900).calls.length = 3
    ∧ (∀ c ∈ (run_with_retry (fun k _ => (Except.error k : Except Nat Nat)) ((3 : Nat) : Int) 900).calls, c.2 = 900)
    ∧ (run_with_retry (fun k _ => (Except.error k : Except Nat Nat)) ((3 : Nat) : Int) 900).sleeps.get
        ⟨0, by decide⟩ = BACKOFF_BASE * 2 ^ 0 :=
  claim_C4_defaults_and_overrides _ (fun k => k) 3 900 0 (fun _ _ => rfl) (by decide) (by decide)

/-- C4 counterexample: the backoff base is not a per-call parameter — the
waits of a concrete failing run with `max_retries = 3` are `[4, 8]`, the
schedule of the module constant `BACKOFF_BASE = 4`, and not the `[5, 10]`
a caller supplying base 5 would require; `run_with_retry`'s call interface
offers no backoff-base argument at all. -/
theorem claim_C4_counterexample :
    (run_with_retry (fun k _ => (Except.error k : Except Nat Nat)) 3 900).sleeps = [4, 8]
    ∧ (run_with_retry (fun k _ => (Except.error k : Except Nat Nat)) 3 900).sleeps ≠ [5, 10] := by
  constructor
  · rfl
  · intro hcontra
    have : ([4, 8] : List Nat) = [5, 10] := by
      calc ([4, 8] : List Nat)
          = (run_with_retry (fun k _ => (Except.error k : Except Nat Nat)) 3 900).sleeps := rfl
        _ = [5, 10] := hcontra
    simp at this

/-!
## Auto-Correct Engine

`smart_fix_token` (src/Termux-Setup.py lines 213-225) consults two lookup
tables and falls back to `difflib.get_close_matches(token, choices, n=1,
cutoff=0.78)`.  The `difflib.SequenceMatcher` algorithm is embedded below
for junk-free sequences: every string involved is far below the autojunk
threshold (200 characters), at which difflib's junk heuristic is inert and
`find_longest_match` is exactly the longest-matching-block dynamic
programme (the two junk-extension loops cannot extend a maximal block).
Ratios are modelled in `ℚ`; difflib compares IEEE doubles, but for the
string lengths involved here the rational value `2*M/T` can never fall
within double rounding distance of the cutoff `0.78 = 39/50` (that would
need `100*M = 39*T`, impossible for `T < 100`), so the comparisons agree.
-/

/-- One dynamic-programming row of `find_longest_match`: `pshift` is the
previous row shifted by one (difflib's `j2len.get(j-1, 0) + 1`), giving in
each cell the length of the common run ending at the current characters. -/
def stepRow (ai : Char) : List Char → List Nat → List Nat
  | [], _ => []
  | c :: cs, pshift =>
    (if c = ai then pshift.headD 0 + 1 else 0) :: stepRow ai cs pshift.tail

/-- Scan row `i` (0-based) left to right, keeping the first strictly larger
run, exactly difflib's `if k > bestsize` update producing
`(i-k+1, j-k+1, k)`. -/
def scanRow (i : Nat) : List Nat → Nat → (Nat × Nat × Nat) → (Nat × Nat × Nat)
  | [], _, best => best
  | k :: ks, j, best =>
    scanRow i ks (j + 1) (if best.2.2 < k then (i + 1 - k, j + 1 - k, k) else best)

/-- Row-by-row loop of `find_longest_match` over the characters of `a`. -/
def flmGo (b : List Char) : List Char → Nat → List Nat → (Nat × Nat × Nat) → (Nat × Nat × Nat)
  | [], _, _, best => best
  | ai :: arest, i, prev, best =>
    let row := stepRow ai b (0 :: prev)
    flmGo b arest (i + 1) row (scanRow i row 0 best)

/-- `SequenceMatcher.find_longest_match` on the full ranges, junk-free:
the longest matching block `(i, j, size)`, ties resolved to the smallest
`i`, then smallest `j`. -/
def find_longest_match (a b : List Char) : Nat × Nat × Nat :=
  flmGo b a 0 (List.replicate b.length 0) (0, 0, 0)

/-- Total size of `SequenceMatcher.get_matching_blocks`: recursively split
around the longest match.  `fuel` only bounds the recursion;
`a.length + b.length + 1` always suffices since each split strictly
shrinks the combined length. -/
def matching_blocks_size : Nat → List Char → List Char → Nat
  | 0, _, _ => 0
  | fuel + 1, a, b =>
    let ijk := find_longest_match a b
    if ijk.2.2 = 0 then 0
    else
      matching_blocks_size fuel (a.take ijk.1) (b.take ijk.2.1) + ijk.2.2 +
        matching_blocks_size fuel (a.drop (ijk.1 + ijk.2.2)) (b.drop (ijk.2.1 + ijk.2.2))

/-- difflib's `_calculate_ratio(matches, length)`: `2*matches/length`,
and `1` when both sequences are empty. -/
def calcRatio (mtc length : Nat) : ℚ :=
  if length = 0 then 1 else mkRat (2 * (mtc : Int)) length

/-- `SequenceMatcher.ratio()` with `a` the candidate and `b` the word. -/
def sm_ratio (a b : List Char) : ℚ :=
  calcRatio (matching_blocks_size (a.length + b.length + 1) a b) (a.length + b.length)

/-- Multiset-intersection count used by `quick_ratio`: each character of
`a` consumes one availability from `b`. -/
def countMatches : List Char → List Char → Nat
  | [], _ => 0
  | c :: cs, avail =>
    if c ∈ avail then countMatches cs (avail.erase c) + 1 else countMatches cs avail

/-- `SequenceMatcher.quick_ratio()`. -/
def sm_quick_ratio (a b : List Char) : ℚ :=
  calcRatio (countMatches a b) (a.length + b.length)

/-- `SequenceMatcher.real_quick_ratio()`. -/
def sm_real_quick_ratio (a b : List Char) : ℚ :=
  calcRatio (min a.length b.length) (a.length + b.length)

/-- Python string `<` (lexicographic on code points), used by
`heapq.nlargest` to break ties between equal scores. -/
def pyStrLt : List Char → List Char → Bool
  | [], [] => false
  | [], _ :: _ => true
  | _ :: _, [] => false
  | c :: cs, d :: ds => if c = d then pyStrLt cs ds else decide (c < d)

/-- `difflib.get_close_matches(word, possibilities, n=1, cutoff)`:
keep the possibilities whose three ratio bounds all reach the cutoff,
then return the maximum of the `(score, string)` pairs (ties on score go
to the larger string, as tuple comparison does in `heapq.nlargest`). -/
def get_close_matches₁ (word : String) (poss : List String) (cutoff : ℚ) : Option String :=
  let scored := poss.filterMap (fun x =>
    if cutoff ≤ sm_real_quick_ratio x.data word.data
        ∧ cutoff ≤ sm_quick_ratio x.data word.data
        ∧ cutoff ≤ sm_ratio x.data word.data
    then some (sm_ratio x.data word.data, x) else none)
  (scored.foldl (fun acc p =>
      match acc with
      | none => some p
      | some q => if q.1 < p.1 ∨ (q.1 = p.1 ∧ pyStrLt q.2.data p.2.data) then some p else some q)
    none).map Prod.snd

/-- `CANONICAL_COMMANDS` (src/Termux-Setup.py lines 165-185), in source
order (dicts preserve insertion order). -/
def CANONICAL_COMMANDS : List (String × String) :=
  [("apt", "apt"), ("pkg", "pkg"), ("pip", "pip"), ("python", "python"), ("py", "python"),
   ("npm", "npm"), ("node", "node"), ("git", "git"), ("bash", "bash"),
   ("termux-battery-status", "termux-battery-status"),
   ("termux-notification", "termux-notification"),
   ("termux-setup-storage", "termux-setup-storage"),
   ("speedtest", "speedtest"), ("nmap", "nmap"), ("openvpn", "openvpn"),
   ("sqlmap", "sqlmap"), ("hydra", "hydra"), ("git-lfs", "git-lfs"), ("neofetch", "neofetch")]

/-- `COMMON_TOKEN_CORRECTIONS` (src/Termux-Setup.py lines 187-211), in
source order. -/
def COMMON_TOKEN_CORRECTIONS : List (String × String) :=
  [("updata", "update"), ("updat", "update"), ("upgarde", "upgrade"), ("upgrde", "upgrade"),
   ("instal", "install"), ("insatll", "install"), ("intall", "install"),
   ("pul", "pull"), ("pll", "pull"), ("clne", "clone"), ("cloner", "clone"),
   ("insall", "install"), ("sorit", "source"), ("soruce", "source"), ("pyhton", "python"),
   ("termux-battry-status", "termux-battery-status"),
   ("termux-notificaton", "termux-notification"),
   ("speedet", "speedtest"), ("sqlmpa", "sqlmap"), ("hydar", "hydra"),
   ("openvnp", "openvpn"), ("clera", "clear"), ("lsa", "ls -a")]

/-- Python dict membership / indexing on the two tables. -/
def tblLookup : List (String × String) → String → Option String
  | [], _ => none
  | (k, v) :: rest, token => if token = k then some v else tblLookup rest token

/-- The `choices` list of `smart_fix_token`:
`list(CANONICAL_COMMANDS.keys()) + list(COMMON_TOKEN_CORRECTIONS.keys())`. -/
def smartChoices : List String :=
  CANONICAL_COMMANDS.map Prod.fst ++ COMMON_TOKEN_CORRECTIONS.map Prod.fst

/-- `smart_fix_token` (src/Termux-Setup.py lines 213-225). -/
def smart_fix_token (token : String) : String :=
  match tblLookup COMMON_TOKEN_CORRECTIONS token with
  | some v => v
  | none =>
    match tblLookup CANONICAL_COMMANDS token with
    | some v => v
    | none =>
      match get_close_matches₁ token smartChoices (mkRat 78 100) with
      | some m =>
        match tblLookup CANONICAL_COMMANDS m with
        | some v => v
        | none => (tblLookup COMMON_TOKEN_CORRECTIONS m).getD m
      | none => token

/-- Python `str.strip()` on character lists. -/
def pyStrip (s : List Char) : List Char :=
  ((s.dropWhile (fun c => c.isWhitespace)).reverse.dropWhile (fun c => c.isWhitespace)).reverse

/-- Python `str.split()` (split on whitespace runs, no empty fields). -/
def splitWsGo : List Char → List Char → List (List Char)
  | [], acc => if acc = [] then [] else [acc.reverse]
  | c :: cs, acc =>
    if c.isWhitespace then
      if acc = [] then splitWsGo cs [] else acc.reverse :: splitWsGo cs []
    else splitWsGo cs (c :: acc)

/-- Python `str.split()` entry point. -/
def pySplitWs (s : List Char) : List (List Char) := splitWsGo s []

/-- Does the token start with the given character? -/
def lcStartsWith (s : List Char) (c : Char) : Bool :=
  match s with
  | [] => false
  | d :: _ => d = c

/-- The skip test of `autocorrect_command` for tokens after the first:
`token.startswith("-") or "/" in token or "=" in token or
token.startswith("$")`. -/
def token_skipped (t : List Char) : Bool :=
  lcStartsWith t '-' || t.contains '/' || t.contains '=' || lcStartsWith t '$'

/-- The token-correction pass of `autocorrect_command`
(src/Termux-Setup.py lines 232-238): `parts[0]` is always corrected; each
later token is corrected unless `token_skipped`. -/
def fix_tokens : List (List Char) → List (List Char)
  | [] => []
  | p0 :: rest =>
    (smart_fix_token (String.mk p0)).data ::
      rest.map (fun t => if token_skipped t then t else (smart_fix_token (String.mk t)).data)

/-- `" ".join(parts)`. -/
def joinSpace : List (List Char) → List Char
  | [] => []
  | [t] => t
  | t :: ts => t ++ ' ' :: joinSpace ts

/-- `autocorrect_command` in the default `silent` mode
(src/Termux-Setup.py lines 227-245): strip, split, correct tokens, rejoin;
return the input unchanged when the correction is a no-op, the corrected
string otherwise (the `ask`/`ai` modes differ only in whether the operator
is asked before the corrected string is adopted — the set of tokens the
pass may alter is mode-independent). -/
def autocorrect_command_silent (cmd : String) : String :=
  let original := pyStrip cmd.data
  if original = [] then cmd
  else
    let corrected := joinSpace (fix_tokens (pySplitWs original))
    if corrected = original then cmd else String.mk corrected

set_option maxRecDepth 100000

/-- If no possibility's ratio reaches the cutoff, the filter of
`get_close_matches` keeps nothing and no match is returned (the two quick
ratios are upper bounds the source checks first; with the true ratio below
cutoff the conjunction fails regardless). -/
theorem get_close_matches₁_eq_none (word : String) (poss : List String) (cutoff : ℚ)
    (h : ∀ x ∈ poss, sm_ratio x.data word.data < cutoff) :
    get_close_matches₁ word poss cutoff = none := by
  unfold get_close_matches₁
  have hfm : poss.filterMap (fun x =>
      if cutoff ≤ sm_real_quick_ratio x.data word.data
          ∧ cutoff ≤ sm_quick_ratio x.data word.data
          ∧ cutoff ≤ sm_ratio x.data word.data
      then some (sm_ratio x.data word.data, x) else none) = [] := by
    rw [List.filterMap_eq_nil_iff]
    intro x hx
    have hneg : ¬(cutoff ≤ sm_real_quick_ratio x.data word.data
        ∧ cutoff ≤ sm_quick_ratio x.data word.data
        ∧ cutoff ≤ sm_ratio x.data word.data) :=
      fun hcon => absurd hcon.2.2 (not_le.mpr (h x hx))
    rw [if_neg hneg]
  rw [hfm]
  rfl

/-- C8: a token that is a key of neither table and whose similarity ratio
to every key of either table is below the 0.78 cutoff passes through
`smart_fix_token` unchanged. -/
theorem claim_C8_below_cutoff_passthrough (token : String)
    (h1 : tblLookup COMMON_TOKEN_CORRECTIONS token = none)
    (h2 : tblLookup CANONICAL_COMMANDS token = none)
    (h3 : ∀ k ∈ smartChoices, sm_ratio k.data token.data < mkRat 78 100) :
    smart_fix_token token = token := by
  unfold smart_fix_token
  rw [h1, h2, get_close_matches₁_eq_none token smartChoices (mkRat 78 100) h3]

/-- C8 witness: `"qqq"` is in neither table, is below cutoff against every
key, and passes through unchanged. -/
theorem claim_C8_below_cutoff_passthrough_witness :
    tblLookup COMMON_TOKEN_CORRECTIONS "qqq" = none
    ∧ tblLookup CANONICAL_COMMANDS "qqq" = none
    ∧ (∀ k ∈ smartChoices, sm_ratio k.data "qqq".data < mkRat 78 100)
    ∧ smart_fix_token "qqq" = "qqq" :=
  ⟨by decide, by decide, by decide,
    claim_C8_below_cutoff_passthrough "qqq" (by decide) (by decide) (by decide)⟩

/-- C9: every typo-table key is corrected to its mapped value, and
applying the correction twice is stable (the mapped value is itself a
fixed point of `smart_fix_token` — for most values because the nearest
fuzzy match maps back to the value itself). -/
theorem claim_C9_typo_key_correction_stable :
    ∀ p ∈ COMMON_TOKEN_CORRECTIONS,
      smart_fix_token p.1 = p.2
      ∧ smart_fix_token (smart_fix_token p.1) = smart_fix_token p.1 := by decide

/-- C9 witness: the typo key `"updata"` maps to `"update"` and the
correction is stable there. -/
theorem claim_C9_typo_key_correction_stable_witness :
    ("updata", "update") ∈ COMMON_TOKEN_CORRECTIONS
    ∧ (smart_fix_token "updata" = "update"
      ∧ smart_fix_token (smart_fix_token "updata") = smart_fix_token "updata") :=
  ⟨by decide, claim_C9_typo_key_correction_stable ("updata", "update") (by decide)⟩

/-- C3 counterexample: the first token of a command line is always passed
to `smart_fix_token`, even when it begins with a shell-variable sigil (or
a flag marker) — `"$pkg"` is fuzzy-corrected to `"pkg"` (ratio 6/7 ≥ 0.78)
although the claim says such tokens are never corrected; moreover
`autocorrect_command` leaves `"pkg install -y nmpa"` entirely unchanged:
`'nmpa'` is NOT corrected to `'nmap'` here, because the best fuzzy score
`ratio("nmap","nmpa") = 3/4` is below the 0.78 cutoff. -/
theorem claim_C3_counterexample :
    lcStartsWith "$pkg".data '$' = true
    ∧ autocorrect_command_silent "$pkg install nmap" = "pkg install nmap"
    ∧ autocorrect_command_silent "pkg install -y nmpa" = "pkg install -y nmpa" := by
  refine ⟨by decide, by decide, by decide⟩

/-- C3 (amended): only tokens after the first are protected — every
later token beginning with `-` or `$` or containing `/` or `=` is passed
through verbatim, while the first token is always subject to correction;
and `"pkg install -y nmpa"` is returned unchanged (`-y` untouched, and
`nmpa` also untouched since its best match ratio 0.75 is below 0.78 — the
`nmpa → nmap` substitution happens in the package-resolution layer with
cutoff 0.72, not in `autocorrect_command`). -/
theorem claim_C3_nonhead_marked_tokens_verbatim (p0 : List Char) (rest : List (List Char))
    (i : Nat) (hi : i < rest.length) (hm : token_skipped rest[i] = true) :
    (fix_tokens (p0 :: rest))[i + 1]? = some rest[i]
    ∧ (fix_tokens (p0 :: rest)).head? = some (smart_fix_token (String.mk p0)).data
    ∧ autocorrect_command_silent "pkg install -y nmpa" = "pkg install -y nmpa" := by
  refine ⟨?_, rfl, by decide⟩
  have hexp : fix_tokens (p0 :: rest) = (smart_fix_token (String.mk p0)).data ::
      rest.map (fun t => if token_skipped t then t else (smart_fix_token (String.mk t)).data) := rfl
  rw [hexp, List.getElem?_cons_succ, List.getElem?_map, List.getElem?_eq_getElem hi]
  simp [hm]

/-- C3 amended, witness: in `pkg install -y nmpa` the flag token `-y`
(position 2 of the split command) survives the correction pass verbatim. -/
theorem claim_C3_nonhead_marked_tokens_verbatim_witness :
    token_skipped "-y".data = true
    ∧ ((fix_tokens ["pkg".data, "install".data, "-y".data, "nmpa".data])[2]? = some "-y".data
      ∧ (fix_tokens ["pkg".data, "install".data, "-y".data, "nmpa".data]).head?
          = some (smart_fix_token (String.mk "pkg".data)).data
      ∧ autocorrect_command_silent "pkg install -y nmpa" = "pkg install -y nmpa") :=
  ⟨by decide,
    claim_C3_nonhead_marked_tokens_verbatim "pkg".data
      ["install".data, "-y".data, "nmpa".data] 1 (by decide) (by decide)⟩

/-!
## Candidate Resolver: `pkg_search_candidates`

The `subprocess.run` call is modelled by its observable result: either an
exception (`.error`, covering `TimeoutExpired` and any other raised error —
the `except` clause returns `[]`) or `.ok (returncode, stdout)`.  Note that
`subprocess.run` is invoked without `check=True`, so a non-zero exit code
does NOT raise; the function parses `stdout` regardless of the code.
-/

/-- Python `str.splitlines()` for `\n`-separated text (a trailing newline
produces no trailing empty line; `\r` variants do not occur in the inputs
considered and are not modelled). -/
def splitLinesGo : List Char → List Char → List (List Char)
  | [], acc => if acc = [] then [] else [acc.reverse]
  | c :: cs, acc =>
    if c = '\n' then acc.reverse :: splitLinesGo cs [] else splitLinesGo cs (c :: acc)

/-- The per-line parse of the result loop: strip the line, skip it when
empty, else take the first whitespace-delimited token (`L.split()[0]`,
whose `.strip()` is a no-op on a whitespace-free token). -/
def lineTok (L : List Char) : Option (List Char) :=
  let Ls := pyStrip L
  if Ls = [] then none
  else
    match pySplitWs Ls with
    | [] => none
    | tok :: _ => if tok = [] then none else some tok

/-- The seen-set deduplication loop of `pkg_search_candidates`
(src/Termux-Setup.py lines 299-305): `seen` is the set (as a list),
`uniq` the output being appended to. -/
def dedupSeenGo : List String → List String → List String → List String
  | [], _, uniq => uniq
  | c :: cs, seen, uniq =>
    if c ∈ seen then dedupSeenGo cs seen uniq
    else dedupSeenGo cs (c :: seen) (uniq ++ [c])

/-- Entry point of the dedup loop: empty seen set, empty output. -/
def dedupSeen (l : List String) : List String := dedupSeenGo l [] []

/-- `pkg_search_candidates(name)` (src/Termux-Setup.py lines 282-309) as a
function of the search subprocess's observable result. -/
def pkg_search_candidates (res : Except Unit (Int × String)) : List String :=
  match res with
  | .error _ => []
  | .ok x => dedupSeen (((splitLinesGo x.2.data []).filterMap lineTok).map String.mk)

/-- Modelled from the spec's words "deduplicates preserving first-seen
order", for the refinement conjunct of C6: keep each string the first time
it appears. -/
def firstSeenDedup (l : List String) : List String :=
  l.foldl (fun acc c => if c ∈ acc then acc else acc ++ [c]) []

/-- The seen-set loop computes the same list as the spec-worded fold, for
any aligned seen/accumulator pair. -/
theorem dedupSeenGo_eq_foldl :
    ∀ (l seen acc : List String), (∀ x, x ∈ seen ↔ x ∈ acc) →
      dedupSeenGo l seen acc = l.foldl (fun a c => if c ∈ a then a else a ++ [c]) acc := by
  intro l
  induction l with
  | nil => intro seen acc h; rfl
  | cons c cs ih =>
    intro seen acc h
    rw [dedupSeenGo, List.foldl_cons]
    by_cases hc : c ∈ seen
    · rw [if_pos hc, if_pos ((h c).mp hc)]
      exact ih seen acc h
    · rw [if_neg hc, if_neg (fun hx => hc ((h c).mpr hx))]
      exact ih (c :: seen) (acc ++ [c]) (fun x => by
        simp only [List.mem_cons, List.mem_append, List.mem_singleton, h x]
        tauto)

/-- The spec-worded fold never produces duplicates. -/
theorem firstSeenDedup_foldl_nodup :
    ∀ (l acc : List String), acc.Nodup →
      (l.foldl (fun a c => if c ∈ a then a else a ++ [c]) acc).Nodup := by
  intro l
  induction l with
  | nil => intro acc h; exact h
  | cons c cs ih =>
    intro acc h
    rw [List.foldl_cons]
    by_cases hc : c ∈ acc
    · rw [if_pos hc]; exact ih acc h
    · rw [if_neg hc]
      exact ih (acc ++ [c]) (by simp [List.nodup_append, h, hc])

/-- C6 counterexample: a non-zero exit code does not produce the empty
list — the exit code is ignored and stdout is parsed regardless. -/
theorem claim_C6_counterexample :
    pkg_search_candidates (Except.ok (1, "foo - a tool\n")) = ["foo"]
    ∧ pkg_search_candidates (Except.ok (1, "foo - a tool\n")) ≠ [] := by
  refine ⟨by decide, by decide⟩

/-- C6 (amended): `pkg_search_candidates` never raises; any raised error
(timeout, launch failure) yields `[]`; the exit code of the search is
ignored — stdout is parsed whatever the code, so a non-zero exit yields
`[]` only when stdout has no parseable line; on parse the result is the
first whitespace-delimited token of each non-empty line, deduplicated
preserving first-seen order, hence duplicate-free. -/
theorem claim_C6_search_candidates (e : Unit) (rc rc₂ : Int) (s : String) :
    pkg_search_candidates (Except.error e) = []
    ∧ pkg_search_candidates (Except.ok (rc, s)) = pkg_search_candidates (Except.ok (rc₂, s))
    ∧ (pkg_search_candidates (Except.ok (rc, s))).Nodup
    ∧ pkg_search_candidates (Except.ok (rc, s))
        = firstSeenDedup (((splitLinesGo s.data []).filterMap lineTok).map String.mk) := by
  have hded : ∀ (l : List String), dedupSeen l = firstSeenDedup l := fun l =>
    dedupSeenGo_eq_foldl l [] [] (fun x => by simp)
  refine ⟨rfl, rfl, ?_, ?_⟩
  · show (dedupSeen _).Nodup
    rw [hded]
    exact firstSeenDedup_foldl_nodup _ [] List.nodup_nil
  · exact hded _

/-!
## Interactive candidate menu: selection parsing

`interactive_candidates_menu` (src/Termux-Setup.py lines 367-425) builds a
1-based `mapping` from the pkg candidates followed by the GitHub
candidates, then parses the operator's selection string.  The parsing is
pure and embedded as `menu_selection`; the operator input is the `raw`
argument.
-/

/-- A menu action: install a package, or clone a repository URL. -/
inductive MenuAction where
  | pkg (name : String)
  | git (url : String)
  deriving DecidableEq, Repr

/-- The numbered `mapping` dict: pkg candidates then GitHub candidates,
indices starting at 1 (`mapping[idx] = ("pkg", p)` / `("git", url)`). -/
def menu_mapping (pkg_cands : List String) (gh_cands : List (String × String)) :
    List (Nat × MenuAction) :=
  let acts := pkg_cands.map MenuAction.pkg ++ gh_cands.map (fun p => MenuAction.git p.2)
  (List.range' 1 acts.length).zip acts

/-- `n in mapping` / `mapping[n]` with a possibly-negative parsed index. -/
def mapLookup (m : List (Nat × MenuAction)) (n : Int) : Option MenuAction :=
  match m with
  | [] => none
  | (k, v) :: rest => if n = (k : Int) then some v else mapLookup rest n

/-- Python `.lower()` (ASCII; the selection strings contain no cased
non-ASCII). -/
def pyLower (s : List Char) : List Char := s.map Char.toLower

/-- Value of a non-empty all-digit string; `none` models `int()` raising
`ValueError` (underscore separators and non-ASCII digits, which Python
also accepts, do not occur in the inputs considered). -/
def digitsVal (l : List Char) : Option Nat :=
  if l ≠ [] ∧ l.all Char.isDigit then
    some (l.foldl (fun acc c => acc * 10 + (c.toNat - '0'.toNat)) 0)
  else none

/-- Python `int(s)`: strip, optional sign, digits — `none` when `int()`
would raise. -/
def pyInt? (s : List Char) : Option Int :=
  match pyStrip s with
  | '-' :: ds => (digitsVal ds).map (fun n => -(n : Int))
  | '+' :: ds => (digitsVal ds).map (fun n => (n : Int))
  | ds => (digitsVal ds).map (fun n => (n : Int))

/-- Python `sel.split(",")` (empty fields kept; they are stripped and
filtered by the caller, as in the source). -/
def splitCommaGo : List Char → List Char → List (List Char)
  | [], acc => [acc.reverse]
  | c :: cs, acc =>
    if c = ',' then acc.reverse :: splitCommaGo cs [] else splitCommaGo cs (c :: acc)

/-- Python `part.split("-", 1)`: split at the first dash, when present. -/
def splitDash1 : List Char → Option (List Char × List Char)
  | [] => none
  | c :: cs =>
    if c = '-' then some ([], cs)
    else (splitDash1 cs).map (fun p => (c :: p.1, p.2))

/-- Python `range(a, b+1)` over integers. -/
def intRange (a b : Int) : List Int :=
  if a ≤ b then (List.range (b + 1 - a).toNat).map (fun i => a + i) else []

/-- The selection parser of `interactive_candidates_menu`
(src/Termux-Setup.py lines 400-425): strip+lower the input; empty or `q`
selects nothing; `a` selects every mapped action; otherwise the
comma-separated parts are processed in order — a part containing a dash is
an inclusive range `a-b` (a part whose bounds fail to parse is skipped,
mirroring the `except: continue`), any other part is a single index
(likewise skipped when unparseable); indices outside the mapping are
skipped silently. -/
def menu_selection (raw : String) (mapping : List (Nat × MenuAction)) : List MenuAction :=
  let sel := pyLower (pyStrip raw.data)
  if sel = [] ∨ sel = ['q'] then []
  else if sel = ['a'] then mapping.map Prod.snd
  else
    let parts := ((splitCommaGo sel []).map pyStrip).filter (fun p => p ≠ [])
    parts.foldl (fun chosen part =>
      if part.contains '-' then
        match splitDash1 part with
        | none => chosen
        | some ab =>
          match pyInt? ab.1, pyInt? ab.2 with
          | some av, some bv =>
            (intRange av bv).foldl (fun ch n =>
              match mapLookup mapping n with
              | some v => ch ++ [v]
              | none => ch) chosen
          | _, _ => chosen
      else
        match pyInt? part with
        | some n =>
          match mapLookup mapping n with
          | some v => chosen ++ [v]
          | none => chosen
        | none => chosen) []

/-- C7: the selection grammar — `q` or empty selects none, the select-all
literal (`a`) selects every candidate (the word `all` is NOT special: its
tokens are unparseable and are skipped, selecting none), `"1,3-4"` against
five candidates selects exactly the candidates at indices 1, 3 and 4, a
plain range `2-4` selects 2, 3, 4, and invalid tokens in a selection are
silently skipped rather than aborting it. -/
theorem claim_C7_selection_grammar (m : List (Nat × MenuAction)) :
    menu_selection "q" m = []
    ∧ menu_selection "" m = []
    ∧ menu_selection "a" m = m.map Prod.snd
    ∧ menu_selection "1,3-4" (menu_mapping ["p1", "p2", "p3", "p4", "p5"] [])
        = [MenuAction.pkg "p1", MenuAction.pkg "p3", MenuAction.pkg "p4"]
    ∧ menu_selection "2-4" (menu_mapping ["p1", "p2", "p3", "p4", "p5"] [])
        = [MenuAction.pkg "p2", MenuAction.pkg "p3", MenuAction.pkg "p4"]
    ∧ menu_selection "x,2,9" (menu_mapping ["p1", "p2", "p3", "p4", "p5"] [])
        = [MenuAction.pkg "p2"]
    ∧ menu_selection "all" (menu_mapping ["p1", "p2", "p3", "p4", "p5"] []) = [] := by
  refine ⟨rfl, rfl, rfl, by decide, by decide, by decide, by decide⟩

/-!
## Backup/Rollback Manager: the git-update path of `process_line`

The tool-manager bash script is written by `create_tool_manager`
(src/Termux-Setup.py lines 717-913).  In its git-update path (the tool
directory already has `.git`), `process_line` runs
`backup_file="$(backup_tool "$name")"` and then calls
`git_pull_with_retry` unconditionally — `backup_tool` never fails the
caller: on `tar` failure it echoes the empty string and exits 0 (the `tar`
is an `if` condition, exempt from `set -e`).  The path is embedded as a
function of the outcomes of its effectful steps: `tarOk` (the snapshot
tar), `pullOk` (`git_pull_with_retry` within its retries), `healthPresent`
(`tooltest.sh`/`test.sh` exists), `healthOk` (the health check run), and
`extractOk` (the `tar -xzf` of a rollback).
-/

/-- Final state of the tool after the update path. -/
inductive ToolOutcome where
  /-- the pull ran and its result stands (health absent or passing) -/
  | updated
  /-- a rollback restored the pre-update snapshot -/
  | rolledBack
  /-- `rollback_tool` was invoked but had no usable backup (or extraction
  failed): the tool is left in an indeterminate state -/
  | rollbackFailed
  /-- the pull failed and the `[ -n "$backup_file" ]` guard skipped the
  rollback: the tool is left as the failed pull left it -/
  | pullFailedNoRollback
  deriving DecidableEq, Repr

/-- Result of the git-update path: whether `git_pull_with_retry` was
invoked (mutating the tool directory), the `backup_file` string it ran
with, and the final state. -/
structure GitUpdateResult where
  pullAttempted : Bool
  backupFile : String
  outcome : ToolOutcome
  deriving DecidableEq, Repr

/-- `backup_tool` (script lines 737-750): echo the archive path on
success, the empty string when the source directory is missing or `tar`
fails; the function's exit status is always 0. -/
def backup_tool (dirExists tarOk : Bool) (file : String) : String :=
  if !dirExists then "" else if tarOk then file else ""

/-- `rollback_tool` (script lines 752-769): fails (returns false) when the
backup reference is empty — the archive file exists exactly when
`backup_tool` echoed a non-empty path — otherwise succeeds iff the
extraction does. -/
def rollback_tool (backup : String) (extractOk : Bool) : Bool :=
  if backup = "" then false else extractOk

/-- The git-update path of `process_line` (script lines 869-884): take the
snapshot result, then always attempt the pull; on pull success run the
health check if present, rolling back (unconditionally, even with an empty
backup reference) when it fails; on pull failure roll back only if
`backup_file` is non-empty. -/
def process_line_git_update (tarOk pullOk healthPresent healthOk extractOk : Bool)
    (file : String) : GitUpdateResult :=
  let backup_file := backup_tool true tarOk file
  if pullOk then
    if healthPresent && !healthOk then
      { pullAttempted := true, backupFile := backup_file,
        outcome := if rollback_tool backup_file extractOk then .rolledBack else .rollbackFailed }
    else
      { pullAttempted := true, backupFile := backup_file, outcome := .updated }
  else
    { pullAttempted := true, backupFile := backup_file,
      outcome :=
        if backup_file ≠ "" then
          (if rollback_tool backup_file extractOk then .rolledBack else .rollbackFailed)
        else .pullFailedNoRollback }

/-- C2 counterexample: when the snapshot `tar` fails (`backup_file` is
empty), the update is NOT aborted — the pull is attempted and, succeeding,
leaves the tool updated without any safety net. -/
theorem claim_C2_counterexample :
    (process_line_git_update false true false false true "bk").backupFile = ""
    ∧ (process_line_git_update false true false false true "bk").pullAttempted = true
    ∧ (process_line_git_update false true false false true "bk").outcome = ToolOutcome.updated := by
  decide

/-- C2 (amended): failure to create the snapshot does not abort the
update: the pull proceeds with an empty `backup_file` (no safety net);
if the pull then fails, the rollback is skipped and the tool is left as
the failed pull left it; if the pull succeeds but the health check fails,
a rollback is attempted with the empty backup reference and fails. -/
theorem claim_C2_snapshot_failure_does_not_abort (pullOk hp hOk eOk : Bool) (file : String) :
    (process_line_git_update false pullOk hp hOk eOk file).pullAttempted = true
    ∧ (process_line_git_update false pullOk hp hOk eOk file).backupFile = ""
    ∧ (process_line_git_update false false hp hOk eOk file).outcome
        = ToolOutcome.pullFailedNoRollback
    ∧ (process_line_git_update false true true false eOk file).outcome
        = ToolOutcome.rollbackFailed := by
  refine ⟨?_, ?_, ?_, ?_⟩ <;> cases pullOk <;> cases hp <;> cases hOk <;> rfl

end TermuxSetup
